import Mathlib

/-!
# Verification of the bielik-m-poc dataset test harness core

Shallow embedding of the answer-checking core of `src/test-dataset.py`:
the answer extractor (`extract_answer_from_output`), the interval
normalizer (`_normalize_interval`), the LaTeX display cleaner
(`clean_latex_for_display`), the numeric parser (`_try_float`), the
multi-strategy equivalence checker (`check_answer`), the code
normalizer (`_sanitize_code`), the error repairer
(`_fix_code_from_error`) and the retry controller
(`_run_sympy_with_retry`).

Python strings are modelled as `List Char` (wrapped in `String` at the
interface).  Python regular expressions are embedded as explicit
scanning functions that reproduce the leftmost-match and
lazy/greedy-with-backtracking semantics of the concrete patterns used
by the source.  Python floats are modelled as exact rationals; every
numeric comparison performed in the claims is on small decimal values
where rational and IEEE-754 arithmetic agree.  The two helpers that
shell out to a sympy subprocess (`_sympy_eval`'s `sympify`/`float`
step and `_sympy_compare`) are external collaborators per the spec and
appear as oracle parameters.
-/

namespace Bielik

/-- Characters Python's `str.strip()` and `\s` treat as whitespace
(ASCII fragment, which is all the inputs here contain). -/
def isPyWs (c : Char) : Bool :=
  c = ' ' || c = '\t' || c = '\n' || c = '\r' ||
  c = Char.ofNat 11 || c = Char.ofNat 12

/-- ASCII decimal digit. -/
def isDigitC (c : Char) : Bool := '0' ≤ c && c ≤ '9'

/-- ASCII letter. -/
def isAsciiAlpha (c : Char) : Bool :=
  ('a' ≤ c && c ≤ 'z') || ('A' ≤ c && c ≤ 'Z')

/-- The Polish letters that appear literally in the source's character
classes (`ąćęłńóśźż` and, where relevant, their capitals). -/
def isPolishLower (c : Char) : Bool :=
  c = 'ą' || c = 'ć' || c = 'ę' || c = 'ł' || c = 'ń' ||
  c = 'ó' || c = 'ś' || c = 'ź' || c = 'ż'

/-- Python's `\w` on the inputs used here: ASCII letters, digits,
underscore, plus Polish letters (Python's `\w` is unicode-aware). -/
def isWordC (c : Char) : Bool :=
  isAsciiAlpha c || isDigitC c || c = '_' || isPolishLower c ||
  c = 'Ą' || c = 'Ć' || c = 'Ę' || c = 'Ł' || c = 'Ń' ||
  c = 'Ó' || c = 'Ś' || c = 'Ź' || c = 'Ż'

/-- ASCII lowercasing of one character (Python `str.lower()` on the
ASCII fragment; the accented letters used in the claims are already
lowercase where it matters). -/
def asciiLowerC (c : Char) : Char :=
  if 'A' ≤ c && c ≤ 'Z' then Char.ofNat (c.toNat + 32) else c

/-- ASCII uppercasing of one character. -/
def asciiUpperC (c : Char) : Char :=
  if 'a' ≤ c && c ≤ 'z' then Char.ofNat (c.toNat - 32) else c

def lowerL (s : List Char) : List Char := s.map asciiLowerC
def upperL (s : List Char) : List Char := s.map asciiUpperC

/-- `str.strip()`: drop leading and trailing whitespace. -/
def pyStripL (s : List Char) : List Char :=
  ((s.dropWhile isPyWs).reverse.dropWhile isPyWs).reverse

/-- Leading-whitespace strip only (`\s*` consumed from the front). -/
def dropWsL (s : List Char) : List Char := s.dropWhile isPyWs

/-- Does `pat` occur at the head of `s`? (`str.startswith`). -/
def startsL : List Char → List Char → Bool
  | [], _ => true
  | _ :: _, [] => false
  | p :: ps, c :: cs => p = c && startsL ps cs

/-- Does `pat` occur anywhere in `s`? (Python `in` on strings). -/
def occursL (pat : List Char) : List Char → Bool
  | [] => startsL pat []
  | c :: cs => startsL pat (c :: cs) || occursL pat cs

/-- `str.replace(pat, rep)` for a non-empty `pat`: leftmost,
non-overlapping, replace all.  Fuelled structural recursion; the fuel
is always instantiated with the length of the string. -/
def replaceAux (pat rep : List Char) : Nat → List Char → List Char
  | _, [] => []
  | 0, s => s
  | fuel + 1, c :: cs =>
    if startsL pat (c :: cs) then
      rep ++ replaceAux pat rep fuel ((c :: cs).drop pat.length)
    else
      c :: replaceAux pat rep fuel cs

def replaceL (pat rep s : List Char) : List Char :=
  if pat.isEmpty then s else replaceAux pat rep s.length s

/-- Split on a single newline character, exactly like Python's
`str.split('\n')` (keeps empty pieces, total). -/
def splitNl : List Char → List (List Char)
  | [] => [[]]
  | c :: cs =>
    if c = '\n' then [] :: splitNl cs
    else
      match splitNl cs with
      | [] => [[c]]
      | p :: ps => (c :: p) :: ps

/-- `'\n'.join(pieces)`. -/
def joinNl : List (List Char) → List Char
  | [] => []
  | [p] => p
  | p :: ps => p ++ '\n' :: joinNl ps

/-- `s[:n]` on strings. -/
def pyTakeL (n : Nat) (s : List Char) : List Char := s.take n

/-! ## Answer Extractor (`extract_answer_from_output`) -/

/-- The brace characters, kept out of literals. -/
def lbraceC : Char := Char.ofNat 123
def rbraceC : Char := Char.ofNat 125

/-- Case-insensitive match of an (uppercase ASCII) literal at the head
of `s`; returns the remainder on success. -/
def ciMatch : List Char → List Char → Option (List Char)
  | [], s => some s
  | _ :: _, [] => none
  | p :: ps, c :: cs => if asciiUpperC c = p then ciMatch ps cs else none

/-- Head match of the labeled-result marker `ODPOWIED[ZŹ]:`
(case-insensitive, per `re.IGNORECASE`); returns the text after the
colon. -/
def markerRest (s : List Char) : Option (List Char) :=
  match ciMatch ['O','D','P','O','W','I','E','D'] s with
  | some (c :: rest) =>
    if c = 'Z' || c = 'z' || c = 'Ź' || c = 'ź' then
      match rest with
      | ':' :: r => some r
      | _ => none
    else none
  | _ => none

/-- The `\s*(.+)` tail of the marker pattern: greedy whitespace skip,
then a greedy non-newline run; on an all-whitespace tail the greedy
`\s*` backtracks one character, so the group becomes the rightmost
non-newline (whitespace) character, and the match fails if none
exists. -/
def markerPayload (rest : List Char) : Option (List Char) :=
  let r := rest.dropWhile isPyWs
  if r ≠ [] then some (r.takeWhile (· ≠ '\n'))
  else
    match (rest.takeWhile isPyWs).reverse.dropWhile (· = '\n') with
    | [] => none
    | c :: _ => some [c]

/-- `re.search(r'ODPOWIED[ZŹ]:\s*(.+)', output, re.IGNORECASE)`:
try every start position left to right. -/
def markerScan : List Char → Option (List Char)
  | [] => none
  | c :: cs =>
    match markerRest (c :: cs) with
    | some rest =>
      match markerPayload rest with
      | some g => some g
      | none => markerScan cs
    | none => markerScan cs

/-- `re.sub(r'^\[(.+)\]$', r'\1', a)`: unwrap a bracketed value. -/
def unwrapListL (a : List Char) : List Char :=
  match a with
  | '[' :: rest =>
    if 2 ≤ rest.length && (rest.getLast? == some ']') &&
       rest.dropLast.all (· ≠ '\n') then rest.dropLast else a
  | _ => a

/-- `re.match(r'^\{(?:\w+:\s*)?(.+?)\}$', a)`: unwrap a single-value
mapping-like wrapper.  The optional `\w+:\s*` is tried first (greedy),
backtracking to the un-optioned form when the rest cannot match. -/
def unwrapBrace (a : List Char) : Option (List Char) :=
  match a with
  | c :: rest =>
    if c = lbraceC && (rest.getLast? == some rbraceC) && 1 ≤ rest.length then
      let inner := rest.dropLast
      let withOpt : Option (List Char) :=
        let wrun := inner.takeWhile isWordC
        if wrun ≠ [] then
          match inner.drop wrun.length with
          | ':' :: rest1 =>
            let w := rest1.takeWhile isPyWs
            let r := rest1.dropWhile isPyWs
            if r ≠ [] then
              if r.all (· ≠ '\n') then some r else none
            else
              match w.getLast? with
              | some cl => if cl ≠ '\n' then some [cl] else none
              | none => none
          | _ => none
        else none
      match withOpt with
      | some g => some g
      | none =>
        if inner ≠ [] && inner.all (· ≠ '\n') then some inner else none
    else none
  | [] => none

/-- The none-equivalent tokens `('none', 'null', '[]', '{}', '')`. -/
def skipTokens : List (List Char) :=
  [['n','o','n','e'], ['n','u','l','l'], ['[',']'], [lbraceC, rbraceC], []]

def isSkipToken (a : List Char) : Bool := skipTokens.contains (lowerL a)

/-- `re.search(r'[-\d.*/()a-z]', line, re.IGNORECASE)`: does the line
contain a value-like character? -/
def hasValueChar (l : List Char) : Bool :=
  l.any fun c =>
    c = '-' || isDigitC c || c = '.' || c = '*' || c = '/' ||
    c = '(' || c = ')' || isAsciiAlpha c

/-- `re.sub(r'^[A-Za-ząćęłńóśźż\s]+:\s*', '', line)`: strip a leading
natural-language label.  The class run is maximal (the class excludes
the colon), must be non-empty, and must be followed by `:`. -/
def stripLabel (l : List Char) : List Char :=
  let isLabelC : Char → Bool := fun c => isAsciiAlpha c || isPolishLower c || isPyWs c
  let run := l.takeWhile isLabelC
  if run ≠ [] then
    match l.drop run.length with
    | ':' :: rest => rest.dropWhile isPyWs
    | _ => l
  else l

/-- The reversed-lines fallback loop of `extract_answer_from_output`. -/
def fallbackScan : List (List Char) → Option (List Char)
  | [] => none
  | line :: rls =>
    if hasValueChar line then
      let cleaned := stripLabel line
      if cleaned ≠ [] then
        let cleaned := unwrapListL cleaned
        if ¬ isSkipToken cleaned then some cleaned
        else fallbackScan rls
      else fallbackScan rls
    else fallbackScan rls

/-- `extract_answer_from_output` on `List Char`. -/
def extractAnswerL (output : List Char) : Option (List Char) :=
  match markerScan output with
  | some g =>
    let answer := pyStripL g
    let answer := unwrapListL answer
    let answer := match unwrapBrace answer with
                  | some g2 => g2
                  | none => answer
    if isSkipToken answer then none else some answer
  | none =>
    let lines := ((splitNl (pyStripL output)).map pyStripL).filter (· ≠ [])
    if h : lines ≠ [] then
      match fallbackScan lines.reverse with
      | some v => some v
      | none => some (lines.getLast h)
    else none

/-- `extract_answer_from_output(output)` from `src/test-dataset.py`. -/
def extract_answer_from_output (output : String) : Option String :=
  (extractAnswerL output.data).map List.asString

/-! ## LaTeX display cleaner (`clean_latex_for_display`) -/

/-- Generic `re.sub` driver: at each position, `tryM` either matches a
prefix (returning the replacement and the remainder after the match)
or fails; leftmost, non-overlapping, all occurrences.  The fuel is
instantiated with the string length. -/
def scanSub (tryM : List Char → Option (List Char × List Char)) :
    Nat → List Char → List Char
  | _, [] => []
  | 0, s => s
  | fuel + 1, c :: cs =>
    match tryM (c :: cs) with
    | some (rep, rest) => rep ++ scanSub tryM fuel rest
    | none => c :: scanSub tryM fuel cs

def runSub (tryM : List Char → Option (List Char × List Char))
    (s : List Char) : List Char :=
  scanSub tryM s.length s

/-- Match literal `pat` at the head, returning the remainder. -/
def litM (pat : List Char) (s : List Char) : Option (List Char) :=
  if startsL pat s then some (s.drop pat.length) else none

/-- `[^}]*` followed by the closing brace: the maximal run of
non-`}` characters, requiring a `}` right after. -/
def braceRun (s : List Char) : Option (List Char × List Char) :=
  let run := s.takeWhile (· ≠ rbraceC)
  match s.drop run.length with
  | c :: rest => if c = rbraceC then some (run, rest) else none
  | [] => none

/-- `\\boxed\{([^}]*)\}` → `\1`. -/
def boxedM (s : List Char) : Option (List Char × List Char) :=
  match litM ('\\' :: ("boxed".data ++ [lbraceC])) s with
  | some r => braceRun r
  | none => none

/-- `\\d?frac\{([^}]*)\}\{([^}]*)\}` with replacement given by `mk`
(the display cleaner uses `(\1)/(\2)`, the sympy cleaner
`((\1)/(\2))`). -/
def fracM (mk : List Char → List Char → List Char) (s : List Char) :
    Option (List Char × List Char) :=
  match litM ['\\'] s with
  | some r1 =>
    let r2 := match litM ['d'] r1 with
              | some rd => if startsL "frac".data rd then rd else r1
              | none => r1
    match litM ("frac".data ++ [lbraceC]) r2 with
    | some r3 =>
      match braceRun r3 with
      | some (g1, r4) =>
        match litM [lbraceC] r4 with
        | some r5 =>
          match braceRun r5 with
          | some (g2, r6) => some (mk g1 g2, r6)
          | none => none
        | none => none
      | none => none
    | none => none
  | none => none

/-- `\\sqrt\[(\d+)\]\{([^}]*)\}` → `(\2)**(1/\1)`. -/
def sqrtNM (s : List Char) : Option (List Char × List Char) :=
  match litM ('\\' :: "sqrt[".data) s with
  | some r1 =>
    let ds := r1.takeWhile isDigitC
    if ds ≠ [] then
      match litM (']' :: [lbraceC]) (r1.drop ds.length) with
      | some r2 =>
        (braceRun r2).map fun (g, rest) =>
          ("(".data ++ g ++ ")**(1/".data ++ ds ++ [')'], rest)
      | none => none
    else none
  | none => none

/-- `\\sqrt\{([^}]*)\}` → `sqrt(\1)`. -/
def sqrtM (s : List Char) : Option (List Char × List Char) :=
  match litM ('\\' :: "sqrt".data ++ [lbraceC]) s with
  | some r =>
    (braceRun r).map fun (g, rest) => ("sqrt(".data ++ g ++ [')'], rest)
  | none => none

/-- Try literal alternatives in order, emitting a single space. -/
def tryAltsSp (r : List Char) : List (List Char) →
    Option (List Char × List Char)
  | [] => none
  | a :: rest =>
    match litM a r with
    | some r2 => some ([' '], r2)
    | none => tryAltsSp r rest

/-- `\\(left|right|cdot|times|text|mathrm|quad|,|\\)` → `' '`
(alternatives tried in order). -/
def opWordM (s : List Char) : Option (List Char × List Char) :=
  match litM ['\\'] s with
  | some r =>
    tryAltsSp r ["left".data, "right".data, "cdot".data, "times".data,
                 "text".data, "mathrm".data, "quad".data, [','], ['\\']]
  | none => none

/-- `\\log_\{([^}]*)\}` → `log_\1`. -/
def logM (s : List Char) : Option (List Char × List Char) :=
  match litM ('\\' :: "log_".data ++ [lbraceC]) s with
  | some r => (braceRun r).map fun (g, rest) => ("log_".data ++ g, rest)
  | none => none

/-- `\\[a-zA-Z]+` → `''`. -/
def cmdM (s : List Char) : Option (List Char × List Char) :=
  match litM ['\\'] s with
  | some r =>
    let run := r.takeWhile isAsciiAlpha
    if run ≠ [] then some ([], r.drop run.length) else none
  | none => none

/-- `\s+` → `' '`. -/
def wsRunM (s : List Char) : Option (List Char × List Char) :=
  let run := s.takeWhile isPyWs
  if run ≠ [] then some ([' '], s.drop run.length) else none

/-- `re.sub(r'^\|?\w+\|?\s*=\s*', '', t)`: strip a leading
`|name| = `-style label (anchored at the start). -/
def stripEqLabel (t : List Char) : List Char :=
  let t1 := match t with
            | '|' :: r => r
            | _ => t
  let run := t1.takeWhile isWordC
  if run ≠ [] then
    let t2 := t1.drop run.length
    let t3 := match t2 with
              | '|' :: r => r
              | _ => t2
    match (t3.dropWhile isPyWs) with
    | '=' :: r => r.dropWhile isPyWs
    | _ => t
  else t

/-- `clean_latex_for_display` on `List Char`: the sequence of
rewrites of `src/test-dataset.py` lines 140-167, in source order. -/
def cleanLatexL (text : List Char) : List Char :=
  let t := text.filter (· ≠ '$')                       -- re.sub(r'\$\$?', '', t)
  let t := runSub boxedM t
  let t := runSub (fracM fun a b => "(".data ++ a ++ ")/(".data ++ b ++ [')']) t
  let t := runSub sqrtNM t
  let t := runSub sqrtM t
  let t := runSub opWordM t
  let t := replaceL ('\\' :: "langle".data) ['<'] t
  let t := replaceL ('\\' :: "rangle".data) ['>'] t
  let t := replaceL ('\\' :: "infty".data) "inf".data t
  let t := replaceL ('\\' :: "leq".data) "<=".data t
  let t := replaceL ('\\' :: "geq".data) ">=".data t
  let t := replaceL ('\\' :: "in".data) " in ".data t
  let t := runSub logM t
  let t := runSub cmdM t
  let t := t.filter (fun c => c ≠ lbraceC && c ≠ rbraceC)  -- re.sub(r'[{}]', '', t)
  let t := pyStripL (runSub wsRunM t)
  pyStripL (stripEqLabel t)

/-- `clean_latex_for_display(text)` from `src/test-dataset.py`. -/
def clean_latex_for_display (text : String) : String :=
  (cleanLatexL text.data).asString

/-! ## Numeric parsing (`_try_float`) and the sympy evaluation front end

Python floats are modelled as exact fractions (`PyF`, an integer
numerator over a positive natural denominator, kept unnormalized so
every operation is kernel-computable).  All numeric literals exercised
by the claims are small decimals on which exact-fraction and IEEE-754
comparison agree. -/

/-- An exact fraction standing in for a Python float. -/
structure PyF where
  num : Int
  den : Nat

def PyF.sub (a b : PyF) : PyF :=
  ⟨a.num * b.den - b.num * a.den, a.den * b.den⟩

def PyF.fabs (a : PyF) : PyF := ⟨|a.num|, a.den⟩

/-- Division (callers guard against a zero divisor, as the source
does). -/
def PyF.fdiv (a b : PyF) : PyF :=
  if b.num < 0 then ⟨-(a.num * b.den), a.den * b.num.natAbs⟩
  else ⟨a.num * b.den, a.den * b.num.natAbs⟩

/-- Value comparison by cross multiplication (denominators are
positive by construction). -/
def PyF.blt (a b : PyF) : Bool := a.num * b.den < b.num * a.den

def PyF.isZero (a : PyF) : Bool := a.num = 0

/-- `1.0`. -/
def PyF.one : PyF := ⟨1, 1⟩

/-- The fixed tolerance `0.01`. -/
def PyF.tol : PyF := ⟨1, 100⟩

def digitsVal (ds : List Char) : Nat :=
  ds.foldl (fun acc c => acc * 10 + (c.toNat - '0'.toNat)) 0

/-- `float(s)` on the simple-decimal grammar
`[+-]? (digits [. digits*] | . digits+)` — the only shapes the
harness ever feeds it (no exponents, `inf` or `nan` arise); anything
else raises `ValueError`, modelled as `none`. -/
def pyFloat? (s : List Char) : Option PyF :=
  let core : List Char → Option PyF := fun t =>
    let d1 := t.takeWhile isDigitC
    let rest := t.drop d1.length
    match rest with
    | [] => if d1 ≠ [] then some ⟨digitsVal d1, 1⟩ else none
    | '.' :: r2 =>
      let d2 := r2.takeWhile isDigitC
      if r2.drop d2.length = [] && (d1 ≠ [] || d2 ≠ []) then
        some ⟨digitsVal (d1 ++ d2), 10 ^ d2.length⟩
      else none
    | _ => none
  match s with
  | '-' :: t => (core t).map fun q => ⟨-q.num, q.den⟩
  | '+' :: t => core t
  | t => core t

/-- One token of `re.findall(r'-?\d+\.?\d*', s)` at the head. -/
def numTok (s : List Char) : Option (List Char × List Char) :=
  let core : List Char → Option (List Char × List Char) := fun t =>
    let d1 := t.takeWhile isDigitC
    if d1 ≠ [] then
      match t.drop d1.length with
      | '.' :: r2 =>
        let d2 := r2.takeWhile isDigitC
        some (d1 ++ '.' :: d2, r2.drop d2.length)
      | r => some (d1, r)
    else none
  match s with
  | '-' :: t => (core t).map fun (tok, rest) => ('-' :: tok, rest)
  | t => core t

/-- `re.findall(r'-?\d+\.?\d*', s)`: leftmost, non-overlapping. -/
def findNumsAux : Nat → List Char → List (List Char)
  | _, [] => []
  | 0, _ => []
  | fuel + 1, c :: cs =>
    match numTok (c :: cs) with
    | some (tok, rest) => tok :: findNumsAux fuel rest
    | none => findNumsAux fuel cs

def findNums (s : List Char) : List (List Char) := findNumsAux s.length s

/-- Trailing-run strip `re.sub(r'[a-zA-Ząćęłńóśźż°]+$', '', s)`. -/
def stripUnits (s : List Char) : List Char :=
  let isUnitC : Char → Bool := fun c =>
    isAsciiAlpha c || isPolishLower c || c = '°'
  (s.reverse.dropWhile isUnitC).reverse

/-- `_try_float(s)` from `src/test-dataset.py`. -/
def try_floatL (s0 : List Char) : Option PyF :=
  let s := replaceL [','] ['.'] (pyStripL s0)
  let s := pyStripL (stripUnits s)
  match pyFloat? s with
  | some v => some v
  | none =>
    match (findNums s).getLast? with
    | some tok => pyFloat? tok
    | none => none

def try_float (s : String) : Option PyF := try_floatL s.data

/-- `\text\{[^}]*\}` → `''` (first cleaning step of `_sympy_eval`). -/
def textCmdM (s : List Char) : Option (List Char × List Char) :=
  match litM ('\\' :: "text".data ++ [lbraceC]) s with
  | some r => (braceRun r).map fun (_, rest) => (([] : List Char), rest)
  | none => none

/-- `(\d)\s*([a-zA-Z])` → `\1*\2` (implicit multiplication). -/
def digitLetterM (s : List Char) : Option (List Char × List Char) :=
  match s with
  | d :: rest =>
    if isDigitC d then
      let r := rest.dropWhile isPyWs
      match r with
      | c :: r2 =>
        if isAsciiAlpha c then some ([d, '*', c], r2) else none
      | [] => none
    else none
  | [] => none

/-- `,(\d)` → `.\1` (Polish decimal comma). -/
def commaDigitM (s : List Char) : Option (List Char × List Char) :=
  match s with
  | ',' :: d :: rest => if isDigitC d then some (['.', d], rest) else none
  | _ => none

/-- The expression-cleaning phase of `_sympy_eval` (lines 241-256 of
`src/test-dataset.py`); returns `none` where the source returns `None`
before ever spawning the sympy subprocess. -/
def sympyEvalClean (expr : List Char) : Option (List Char) :=
  let s := pyStripL expr
  let s := runSub textCmdM s
  let s := replaceL ('\\' :: "cdot".data) ['*'] s
  let s := replaceL ('\\' :: "left".data) [] s
  let s := replaceL ('\\' :: "right".data) [] s
  let s := runSub (fracM fun a b => "((".data ++ a ++ ")/(".data ++ b ++ "))".data) s
  let s := runSub sqrtM s
  let s := s.filter (· ≠ '\\')
  let s := s.map fun c => if c = lbraceC then '(' else if c = rbraceC then ')' else c
  let s := replaceL ['^'] "**".data s
  let s := runSub digitLetterM s
  let s := pyStripL (replaceL ['°'] [] (replaceL "zł".data [] s))
  let s := runSub commaDigitM s
  let s := s.filter (· ≠ ' ')
  if s = [] || s = ['-'] || s = ['+'] then none else some s

/-- `_sympy_eval`: cleaning followed by the external
`float(sympify(s))` subprocess, which is the oracle parameter
`sympifyFloat` (any parse/evaluation failure is `none`). -/
def sympy_eval (sympifyFloat : String → Option PyF) (expr : String) : Option PyF :=
  match sympyEvalClean expr.data with
  | some s => sympifyFloat s.asString
  | none => none

/-- Python's `a or b` on optional floats: `None` and `0.0` are falsy. -/
def orFloat (a b : Option PyF) : Option PyF :=
  match a with
  | some v => if v.isZero then b else some v
  | none => b

/-- Rendering of a float in an f-string.  The claims only evaluate it
on integral values, where Python prints `n.0`; non-integral values
never reach an explanation in the verified scenarios. -/
def floatRepr (q : PyF) : String :=
  if q.den = 1 then toString q.num ++ ".0"
  else toString q.num ++ "/" ++ toString q.den

/-! ## Interval normalizer (`_normalize_interval`)

The three patterns of `_normalize_interval` are embedded with their
exact backtracking semantics: lazy groups grow from the shortest
candidate, greedy `\s*` runs give back from the longest, alternatives
and start positions are tried left to right.  `.` never matches a
newline and `$` is the end of the (already stripped) string. -/

/-- Lazy `(.+?)\)?$`: the shortest non-empty newline-free prefix whose
remainder is empty or a single closing parenthesis. -/
def lazyG2 : List Char → Option (List Char)
  | [] => none
  | c :: cs =>
    if c = '\n' then none
    else if cs = [] || cs = [')'] then some [c]
    else (lazyG2 cs).map (c :: ·)

/-- Greedy-`\s*`-then-`search` with give-back, trying the longest
whitespace consumption first. -/
def wsBackAux {α : Type} (search : List Char → Option α) (r : List Char) :
    Nat → Option α
  | 0 => search r
  | i + 1 =>
    match search (r.drop (i + 1)) with
    | some v => some v
    | none => wsBackAux search r i

def wsBack {α : Type} (search : List Char → Option α) (r : List Char) :
    Option α :=
  wsBackAux search r (r.takeWhile isPyWs).length

/-- `\s*(.+?)\)?$` (the tail shared by all three patterns after their
final comparison operator). -/
def tailAfterLt (r : List Char) : Option (List Char) := wsBack lazyG2 r

/-- `\s*&\s*x\s*<\s*(.+?)\)?$` (the conjunct tail of patterns 1/2). -/
def ampCont (r : List Char) : Option (List Char) :=
  match r.dropWhile isPyWs with
  | '&' :: r2 =>
    match r2.dropWhile isPyWs with
    | 'x' :: r3 =>
      match r3.dropWhile isPyWs with
      | '<' :: r4 => tailAfterLt r4
      | _ => none
    | _ => none
  | _ => none

/-- Lazy group 1 of pattern 1, growing until `ampCont` matches. -/
def g1Amp : List Char → Option (List Char × List Char)
  | [] => none
  | c :: cs =>
    if c = '\n' then none
    else
      match ampCont cs with
      | some g2 => some ([c], g2)
      | none => (g1Amp cs).map fun p => (c :: p.1, p.2)

/-- Pattern 1 `(?:x\s*>\s*(.+?))\s*&\s*(?:x\s*<\s*(.+?))\)?$` anchored
at one start position. -/
def p1At (s : List Char) : Option (List Char × List Char) :=
  match s with
  | 'x' :: r1 =>
    match r1.dropWhile isPyWs with
    | '>' :: r2 => wsBack g1Amp r2
    | _ => none
  | _ => none

def p1Scan : List Char → Option (List Char × List Char)
  | [] => none
  | c :: cs =>
    match p1At (c :: cs) with
    | some res => some res
    | none => p1Scan cs

/-- `\s*<\s*x` followed by the conjunct tail (pattern 2 after its lazy
group 1). -/
def ltxCont (r : List Char) : Option (List Char) :=
  match r.dropWhile isPyWs with
  | '<' :: r2 =>
    match r2.dropWhile isPyWs with
    | 'x' :: r3 => ampCont r3
    | _ => none
  | _ => none

/-- Lazy group 1 of pattern 2
`(?:(.+?)\s*<\s*x)\s*&\s*(?:x\s*<\s*(.+?))\)?$`, anchored at one start
position. -/
def g1Ltx : List Char → Option (List Char × List Char)
  | [] => none
  | c :: cs =>
    if c = '\n' then none
    else
      match ltxCont cs with
      | some g2 => some ([c], g2)
      | none => (g1Ltx cs).map fun p => (c :: p.1, p.2)

def p2Scan : List Char → Option (List Char × List Char)
  | [] => none
  | c :: cs =>
    match g1Ltx (c :: cs) with
    | some res => some res
    | none => p2Scan cs

/-- `x\s*<=\s*(.+?)\)?$` at the current position (pattern 3's closing
conjunct). -/
def leTail (r : List Char) : Option (List Char) :=
  match r with
  | 'x' :: r2 =>
    match r2.dropWhile isPyWs with
    | '<' :: '=' :: r3 => tailAfterLt r3
    | _ => none
  | _ => none

/-- Lazy `.*?` before the closing conjunct: try the current position
first, then skip one (non-newline) character. -/
def dotLazyLe : List Char → Option (List Char)
  | [] => none
  | c :: cs =>
    match leTail (c :: cs) with
    | some g2 => some g2
    | none => if c = '\n' then none else dotLazyLe cs

/-- Lazy `.*?&` then `dotLazyLe`: take the leftmost reachable `&`,
falling back to later ones if the remainder fails. -/
def ampLazy : List Char → Option (List Char)
  | [] => none
  | c :: cs =>
    if c = '&' then
      match dotLazyLe cs with
      | some g2 => some g2
      | none => ampLazy cs
    else if c = '\n' then none
    else ampLazy cs

/-- Pattern 3 branch `x\s*>=\s*` (capture group 1 stays unset). -/
def p3BranchA (s : List Char) : Option (List Char) :=
  match s with
  | 'x' :: r1 =>
    match r1.dropWhile isPyWs with
    | '>' :: '=' :: r2 => ampLazy (r2.dropWhile isPyWs)
    | _ => none
  | _ => none

/-- `\s*<=\s*x` then the `.*?&…` continuation (pattern 3 branch with a
lazy left group). -/
def leXCont (r : List Char) : Option (List Char) :=
  match r.dropWhile isPyWs with
  | '<' :: '=' :: r2 =>
    match r2.dropWhile isPyWs with
    | 'x' :: r3 => ampLazy r3
    | _ => none
  | _ => none

def g1LeX : List Char → Option (List Char × List Char)
  | [] => none
  | c :: cs =>
    if c = '\n' then none
    else
      match leXCont cs with
      | some g2 => some ([c], g2)
      | none => (g1LeX cs).map fun p => (c :: p.1, p.2)

/-- Pattern 3
`(?:(?:x\s*>=\s*|(.+?)\s*<=\s*x)).*?&.*?(?:x\s*<=\s*(.+?))\)?$` at one
start position: the `x >=` alternative is tried first. -/
def p3At (s : List Char) : Option (Option (List Char) × List Char) :=
  match p3BranchA s with
  | some g2 => some (none, g2)
  | none => (g1LeX s).map fun p => (some p.1, p.2)

def p3Scan : List Char → Option (Option (List Char) × List Char)
  | [] => none
  | c :: cs =>
    match p3At (c :: cs) with
    | some res => some res
    | none => p3Scan cs

/-- `_normalize_interval(s)` from `src/test-dataset.py` (lines
309-332). -/
def normalize_intervalL (s0 : List Char) : List Char :=
  let s := pyStripL s0
  let mkOpen : List Char × List Char → List Char := fun (g1, g2) =>
    let left := replaceL "-oo".data "-inf".data (pyStripL g1)
    let right := replaceL "oo".data "inf".data (pyStripL g2)
    '(' :: (left ++ ", ".data ++ right ++ [')'])
  match p1Scan s with
  | some m => mkOpen m
  | none =>
    match p2Scan s with
    | some m => mkOpen m
    | none =>
      match p3Scan s with
      | some (l, g2) =>
        let left := pyStripL (l.getD [])
        let right := pyStripL g2
        '<' :: (left ++ ", ".data ++ right ++ ['>'])
      | none => s

def normalize_interval (s : String) : String :=
  (normalize_intervalL s.data).asString

/-! ## Equivalence checker (`check_answer`) -/

def pyStrip (s : String) : String := (pyStripL s.data).asString
def pyLower (s : String) : String := (lowerL s.data).asString
def pyUpper (s : String) : String := (upperL s.data).asString
def squoteS : String := (Char.ofNat 39).toString

/-- A question record as consumed by `check_answer`: the ordered
option-letter → option-text mapping (`question['options']`, empty for
open-ended questions — Python dict truthiness). -/
structure Question where
  options : List (String × String)

/-- `question['options'].get(key, '')`. -/
def lookupOpt : List (String × String) → String → String
  | [], _ => ""
  | (k, v) :: rest, key => if k = key then v else lookupOpt rest key

/-- `[a-dA-D]` (the fixed letter range of the direct-letter strategy). -/
def letterAD (c : Char) : Bool :=
  ('a' ≤ c && c ≤ 'd') || ('A' ≤ c && c ≤ 'D')

/-- `re.search(r'\b([a-dA-D])\b', s)`: first standalone letter in the
fixed range, with word boundaries on both sides. -/
def letterSearchAux : Bool → List Char → Option Char
  | _, [] => none
  | prevW, c :: cs =>
    if letterAD c && !prevW &&
       (match cs with | [] => true | d :: _ => !isWordC d) then
      some c
    else letterSearchAux (isWordC c) cs

def letterSearch (s : List Char) : Option Char := letterSearchAux false s

/-- One token of `re.findall(r'-?\d+(?:/\d+)?(?:\.\d+)?|inf|-inf', s)`
at the head (alternatives in order). -/
def intervalNumCore (t : List Char) : Option (List Char × List Char) :=
  let d1 := t.takeWhile isDigitC
  if d1 = [] then none
  else
    let r1 := t.drop d1.length
    let s2 : List Char × List Char :=
      match r1 with
      | '/' :: rr =>
        let d2 := rr.takeWhile isDigitC
        if d2 ≠ [] then ('/' :: d2, rr.drop d2.length) else ([], r1)
      | _ => ([], r1)
    let s3 : List Char × List Char :=
      match s2.2 with
      | '.' :: rr =>
        let d3 := rr.takeWhile isDigitC
        if d3 ≠ [] then ('.' :: d3, rr.drop d3.length) else ([], s2.2)
      | _ => ([], s2.2)
    some (d1 ++ s2.1 ++ s3.1, s3.2)

def intervalTok (s : List Char) : Option (List Char × List Char) :=
  match s with
  | '-' :: t =>
    match intervalNumCore t with
    | some (tok, rest) => some ('-' :: tok, rest)
    | none =>
      if startsL "inf".data t then some ("-inf".data, t.drop 3) else none
  | t =>
    match intervalNumCore t with
    | some res => some res
    | none =>
      if startsL "inf".data t then some ("inf".data, t.drop 3) else none

def findIntervalToksAux : Nat → List Char → List (List Char)
  | _, [] => []
  | 0, _ => []
  | fuel + 1, c :: cs =>
    match intervalTok (c :: cs) with
    | some (tok, rest) => tok :: findIntervalToksAux fuel rest
    | none => findIntervalToksAux fuel cs

def findIntervalToks (s : List Char) : List (List Char) :=
  findIntervalToksAux s.length s

/-- `s[0] if s else ''`. -/
def headStr : List Char → List Char
  | [] => []
  | c :: _ => [c]

/-- The interval-strategy option loop: last matching option wins
(plain assignment, no break in the source). -/
def intervalFold (gotNorm : List Char) :
    List (String × String) → Option String → Option String
  | [], best => best
  | (k, latex) :: rest, best =>
    let optPlain := cleanLatexL latex.data
    let optNorm := normalize_intervalL optPlain
    if optNorm = optPlain then intervalFold gotNorm rest best
    else
      let gotNums := findIntervalToks gotNorm
      let optNums := findIntervalToks optNorm
      if gotNums ≠ [] && optNums ≠ [] && gotNums = optNums &&
         headStr gotNorm = headStr optNorm then
        intervalFold gotNorm rest (some k)
      else intervalFold gotNorm rest best

/-- The direct symbolic-comparison option loop: first comparing option
returns. -/
def symbolicScan (cmp : String → String → Bool) (gotClean : String) :
    List (String × String) → Option String
  | [] => none
  | (k, latex) :: rest =>
    if cmp gotClean (clean_latex_for_display latex) then some k
    else symbolicScan cmp gotClean rest

/-- The numeric value loop: track the strictly smallest absolute
difference (`None` plays `float('inf')`). -/
def bestValue (sympifyFloat : String → Option PyF) (gv : PyF) :
    List (String × String) → Option String × Option PyF →
    Option String × Option PyF
  | [], acc => acc
  | (k, latex) :: rest, acc =>
    let optPlain := clean_latex_for_display latex
    match orFloat (sympy_eval sympifyFloat optPlain) (try_float optPlain) with
    | some v =>
      let diff := (gv.sub v).fabs
      let better := match acc.2 with
                    | none => true
                    | some d => diff.blt d
      if better then bestValue sympifyFloat gv rest (some k, some diff)
      else bestValue sympifyFloat gv rest acc
    | none => bestValue sympifyFloat gv rest acc

/-- `re.split(r'[,;]', s)`. -/
def splitCS : List Char → List (List Char)
  | [] => [[]]
  | c :: cs =>
    if c = ',' || c = ';' then [] :: splitCS cs
    else
      match splitCS cs with
      | [] => [[c]]
      | p :: ps => (c :: p) :: ps

/-- `re.match(r'[\w_|]+\s*=\s*(.+)', part)`: the value after a leading
`name =` label. -/
def eqValMatch (part : List Char) : Option (List Char) :=
  let run := part.takeWhile fun c => isWordC c || c = '|'
  if run ≠ [] then
    match (part.drop run.length).dropWhile isPyWs with
    | '=' :: r => markerPayload r
    | _ => none
  else none

/-- The clause loop of the open-ended cascade (step 4). -/
def partialScan (sympifyFloat : String → Option PyF)
    (cmp : String → String → Bool) (gotClean gotLower : String)
    (gotValue : Option PyF) : List (List Char) → Option (Bool × String)
  | [] => none
  | p :: rest =>
    let part := pyStripL p
    let val : List Char :=
      match eqValMatch part with
      | some v => pyStripL v
      | none => part
    let valS := val.asString
    if val ≠ [] &&
       (lowerL val = gotLower.data || cmp gotClean valS ||
        (match gotValue, sympy_eval sympifyFloat valS with
         | some gv, some w => (gv.sub w).fabs.blt PyF.tol
         | _, _ => false)) then
      some (true, "Partial match: " ++ gotClean ++ " matches " ++
            squoteS ++ part.asString ++ squoteS)
    else partialScan sympifyFloat cmp gotClean gotLower gotValue rest

/-- `check_answer(expected, got, question)` from `src/test-dataset.py`
(lines 335-454).  The two sympy subprocess calls are the oracle
parameters: `sympifyFloat` is the `float(sympify(·))` step reached by
`_sympy_eval` after its textual cleaning, and `sympyCompare` is
`_sympy_compare`. -/
def check_answer (sympifyFloat : String → Option PyF)
    (sympyCompare : String → String → Bool)
    (expected : String) (got : Option String) (q : Question) :
    Bool × String :=
  match got with
  | none => (false, "No answer produced")
  | some g =>
    if g = "" then (false, "No answer produced")
    else
      let got_clean := pyStrip g
      let got_lower := pyLower got_clean
      if q.options ≠ [] then
        let expected_letter := pyUpper (pyStrip expected)
        let expected_opt_plain :=
          clean_latex_for_display (lookupOpt q.options expected_letter)
        let keyM : String → Bool := fun k => pyUpper k = expected_letter
        let step1 : Option (Bool × String) :=
          match letterSearch got_clean.data with
          | some c =>
            let gl := pyUpper (String.mk [c])
            if gl = expected_letter then some (true, "Letter match: " ++ gl)
            else none
          | none => none
        let step2 : Option (Bool × String) :=
          let gotNorm := normalize_intervalL got_clean.data
          if gotNorm ≠ got_clean.data then
            match intervalFold gotNorm q.options none with
            | some k =>
              if k ≠ "" then
                if keyM k then
                  some (true, "Interval match: " ++ gotNorm.asString ++
                        " ≈ option " ++ k)
                else
                  some (false, "Interval matched option " ++ k ++
                        ", expected " ++ expected_letter)
              else none
            | none => none
          else none
        let step2b : Option (Bool × String) :=
          match symbolicScan sympyCompare got_clean q.options with
          | some k =>
            if keyM k then
              some (true, "Symbolic option match: " ++ got_clean ++
                    " = option " ++ k)
            else
              some (false, "Symbolic matched option " ++ k ++
                    ", expected " ++ expected_letter)
          | none => none
        let step3 : Option (Bool × String) :=
          match orFloat (sympy_eval sympifyFloat got_clean)
                  (try_float got_clean) with
          | some gv =>
            match bestValue sympifyFloat gv q.options (none, none) with
            | (some k, some d) =>
              if k ≠ "" && d.blt PyF.tol then
                if keyM k then
                  some (true, "Value match: " ++ floatRepr gv ++
                        " = option " ++ k ++ " (" ++
                        clean_latex_for_display (lookupOpt q.options k) ++ ")")
                else
                  some (false, "Matched option " ++ k ++ ", expected " ++
                        expected_letter)
              else none
            | _ => none
          | none => none
        let step4 : Option (Bool × String) :=
          if sympyCompare got_clean expected_opt_plain then
            some (true, "Symbolic match with option " ++ expected_letter)
          else none
        ((step1 <|> step2 <|> step2b <|> step3 <|> step4).getD
          (false, "Expected " ++ expected_letter ++ " (" ++
           expected_opt_plain ++ "), got: " ++
           (pyTakeL 60 got_clean.data).asString))
      else
        let expected_plain := clean_latex_for_display expected
        let stepO1 : Option (Bool × String) :=
          if occursL (pyLower expected_plain).data got_lower.data then
            some (true, "Substring match")
          else none
        let gv? := orFloat (sympy_eval sympifyFloat got_clean)
                     (try_float got_clean)
        let ev? := orFloat (sympy_eval sympifyFloat expected_plain)
                     (try_float expected_plain)
        let stepO2 : Option (Bool × String) :=
          match gv?, ev? with
          | some gv, some ev =>
            if ((gv.sub ev).fabs.blt PyF.tol) then
              some (true, "Numeric match: " ++ floatRepr gv)
            else if !ev.isZero && ((gv.fdiv ev).sub PyF.one).fabs.blt PyF.tol then
              some (true, "Ratio match: " ++ floatRepr gv ++ " ≈ " ++
                    floatRepr ev)
            else none
          | _, _ => none
        let stepO3 : Option (Bool × String) :=
          if sympyCompare got_clean expected_plain then
            some (true, "Symbolic match")
          else none
        let stepO4 : Option (Bool × String) :=
          partialScan sympifyFloat sympyCompare got_clean got_lower gv?
            (splitCS expected_plain.data)
        ((stepO1 <|> stepO2 <|> stepO3 <|> stepO4).getD
          (false, "Expected: " ++ expected_plain ++ ", got: " ++
           (pyTakeL 80 got_clean.data).asString))

/-! ## Code normalizer (`_sanitize_code`) -/

def squoteC : Char := Char.ofNat 39

/-- `(\w)\^(\w)` → `\1**\2`. -/
def caret1M : List Char → Option (List Char × List Char)
  | a :: h :: b :: rest =>
    if h = '^' && isWordC a && isWordC b then
      some ([a, '*', '*', b], rest)
    else none
  | _ => none

/-- `\)\^(\w)` → `)**\1`. -/
def caret2M : List Char → Option (List Char × List Char)
  | a :: h :: b :: rest =>
    if a = ')' && h = '^' && isWordC b then
      some ([')', '*', '*', b], rest)
    else none
  | _ => none

/-- `(\w)\^\(` → `\1**(`. -/
def caret3M : List Char → Option (List Char × List Char)
  | a :: h :: b :: rest =>
    if h = '^' && isWordC a && b = '(' then
      some ([a, '*', '*', '('], rest)
    else none
  | _ => none

/-- The wrong-import substitution table, in dict order, each applied
under its `if old in line` guard. -/
def importFixLine (l0 : List Char) : List Char :=
  let l := if occursL "Simplify".data l0 then
             replaceL "Simplify".data "simplify".data l0 else l0
  let l := if occursL "Greater".data l then
             replaceL "Greater".data "Gt".data l else l
  let l := if occursL "Less".data l then
             replaceL "Less".data "Lt".data l else l
  let l := if occursL "GreaterEqual".data l then
             replaceL "GreaterEqual".data "Ge".data l else l
  let l := if occursL "LessEqual".data l then
             replaceL "LessEqual".data "Le".data l else l
  l

/-- Caret rewriting of one line, skipped for comment/string lines. -/
def caretFixLine (line : List Char) : List Char :=
  let t := pyStripL line
  if !startsL ['#'] t && !startsL ['"'] t && !startsL [squoteC] t then
    runSub caret3M (runSub caret2M (runSub caret1M line))
  else line

/-- `_sanitize_code(code)` from `src/test-dataset.py` (lines
477-511): drop assert lines, fix caret exponentiation, fix known
wrong import names. -/
def sanitize_codeL (code : List Char) : List Char :=
  let lines := splitNl code
  let lines := lines.filter fun l => !startsL "assert ".data (pyStripL l)
  let lines := lines.map caretFixLine
  let lines := lines.map importFixLine
  joinNl lines

def sanitize_code (code : String) : String := (sanitize_codeL code.data).asString

/-! ## Error classifier and repairer (`_fix_code_from_error`) -/

/-- `\s*(.+)` returning both the (greedy, non-newline) group and the
remainder after it; on an all-whitespace tail the greedy `\s*` gives
back the rightmost non-newline character. -/
def payloadRest (r : List Char) : Option (List Char × List Char) :=
  let w := r.takeWhile isPyWs
  let rr := r.drop w.length
  if rr ≠ [] then
    let p := rr.takeWhile (· ≠ '\n')
    some (p, rr.drop p.length)
  else
    match w.reverse.dropWhile (· = '\n') with
    | c :: _ => some ([c], w.reverse.takeWhile (· = '\n'))
    | [] => none

/-- `NameError: name '(\w+)' is not defined` at the head. -/
def nameErrAt (s : List Char) : Option (List Char) :=
  match litM ("NameError: name ".data ++ [squoteC]) s with
  | some r =>
    let run := r.takeWhile isWordC
    if run ≠ [] &&
       startsL (squoteC :: " is not defined".data) (r.drop run.length) then
      some run
    else none
  | none => none

def nameErrScan : List Char → Option (List Char)
  | [] => none
  | c :: cs =>
    match nameErrAt (c :: cs) with
    | some n => some n
    | none => nameErrScan cs

/-- `insert_idx`: one past the last import-like line. -/
def lastImportIdxAux : List (List Char) → Nat → Nat → Nat
  | [], _, acc => acc
  | l :: rest, i, acc =>
    let t := pyStripL l
    let acc := if startsL "from ".data t || startsL "import ".data t then
                 i + 1 else acc
    lastImportIdxAux rest (i + 1) acc

def insertAt (x : List Char) : Nat → List (List Char) → List (List Char)
  | 0, ls => x :: ls
  | _ + 1, [] => [x]
  | n + 1, l :: rest => l :: insertAt x n rest

/-- Fix 1: declare the missing symbol after the imports. -/
def fixNameError (code : List Char) (missing : List Char) : List Char :=
  let lines := splitNl code
  let idx := lastImportIdxAux lines 0 0
  let decl := missing ++ " = symbols(".data ++ [squoteC] ++ missing ++
              [squoteC, ')']
  joinNl (insertAt decl idx lines)

/-- `(\w+)\s*=\s*solve\(([^)]+)\)\[0\]` →
`_sols = solve(\2)\n\1 = _sols[0] if _sols else None`. -/
def solveIdxM (s : List Char) : Option (List Char × List Char) :=
  let run := s.takeWhile isWordC
  if run = [] then none
  else
    match (s.drop run.length).dropWhile isPyWs with
    | '=' :: r2 =>
      match litM "solve(".data (r2.dropWhile isPyWs) with
      | some r3 =>
        let arg := r3.takeWhile (· ≠ ')')
        if arg ≠ [] then
          match litM (')' :: "[0]".data) (r3.drop arg.length) with
          | some rest =>
            some ("_sols = solve(".data ++ arg ++ ")".data ++ '\n' ::
                  (run ++ " = _sols[0] if _sols else None".data), rest)
          | none => none
        else none
      | none => none
    | _ => none

/-- `(\w+)\[0\]` → `(\1[0] if \1 else None)`. -/
def idx0M (s : List Char) : Option (List Char × List Char) :=
  let run := s.takeWhile isWordC
  if run = [] then none
  else
    match litM "[0]".data (s.drop run.length) with
    | some rest =>
      some ('(' :: (run ++ "[0] if ".data ++ run ++ " else None)".data), rest)
    | none => none

/-- `for\s+\w+\s+in\s+(\w+)` →
`for _item in ([\1] if not hasattr(\1, "__iter__") else \1)`. -/
def forInM (s : List Char) : Option (List Char × List Char) :=
  match litM "for".data s with
  | some r1 =>
    let w1 := r1.takeWhile isPyWs
    if w1 = [] then none
    else
      let r2 := r1.drop w1.length
      let v := r2.takeWhile isWordC
      if v = [] then none
      else
        let r3 := r2.drop v.length
        let w2 := r3.takeWhile isPyWs
        if w2 = [] then none
        else
          match litM "in".data (r3.drop w2.length) with
          | some r4 =>
            let w3 := r4.takeWhile isPyWs
            if w3 = [] then none
            else
              let r5 := r4.drop w3.length
              let tgt := r5.takeWhile isWordC
              if tgt = [] then none
              else
                some ("for _item in ([".data ++ tgt ++
                      "] if not hasattr(".data ++ tgt ++
                      ", \"__iter__\") else ".data ++ tgt ++ [')'],
                      r5.drop tgt.length)
          | none => none
  | none => none

/-- `\s*==\s*(.+)` after the lazy group 2 of the equality-assignment
pattern. -/
def eqContAfter (r : List Char) : Option (List Char × List Char) :=
  match litM "==".data (r.dropWhile isPyWs) with
  | some r2 => payloadRest r2
  | none => none

/-- Lazy group 2 of `(\w+)\s*=\s*(.+?)\s*==\s*(.+)`: grow until the
`==` continuation matches; returns (group2, group3, remainder). -/
def eqG2Search : List Char → Option (List Char × List Char × List Char)
  | [] => none
  | c :: cs =>
    if c = '\n' then none
    else
      match eqContAfter cs with
      | some (g3, rest) => some ([c], g3, rest)
      | none => (eqG2Search cs).map fun (g2, g3, rest) => (c :: g2, g3, rest)

/-- `(\w+)\s*=\s*(.+?)\s*==\s*(.+)` → `\1 = Eq(\2, \3)` at the head. -/
def eqAssignM (s : List Char) : Option (List Char × List Char) :=
  let run := s.takeWhile isWordC
  if run = [] then none
  else
    match (s.drop run.length).dropWhile isPyWs with
    | '=' :: r2 =>
      match wsBack eqG2Search r2 with
      | some (g2, g3, rest) =>
        some (run ++ " = Eq(".data ++ g2 ++ ", ".data ++ g3 ++ [')'], rest)
      | none => none
    | _ => none

/-- `(\w+)\[(\w+)\](?!\s*if)` → `\1[0]`. -/
def idxVarM (s : List Char) : Option (List Char × List Char) :=
  let run := s.takeWhile isWordC
  if run = [] then none
  else
    match s.drop run.length with
    | '[' :: r2 =>
      let v := r2.takeWhile isWordC
      if v = [] then none
      else
        match r2.drop v.length with
        | ']' :: rest =>
          if startsL "if".data (rest.dropWhile isPyWs) then none
          else some (run ++ "[0]".data, rest)
        | _ => none
    | _ => none

/-- `re.sub(..., count=1)`: replace the first match only. -/
def scanSubOnce (tryM : List Char → Option (List Char × List Char)) :
    Nat → List Char → List Char
  | _, [] => []
  | 0, s => s
  | fuel + 1, c :: cs =>
    match tryM (c :: cs) with
    | some (rep, rest) => rep ++ rest
    | none => c :: scanSubOnce tryM fuel cs

/-- Fix N: append a labeled print of the last top-level assignment
when no print statement exists. -/
def ensurePrint (fixedIn : List Char) : List Char :=
  if !occursL "print(".data fixedIn then
    let lines := splitNl (pyStripL fixedIn)
    let assignVar : Option (List Char) :=
      (lines.reverse.map fun l =>
        let t := pyStripL l
        let run := t.takeWhile isWordC
        if run ≠ [] &&
           (match (t.drop run.length).dropWhile isPyWs with
            | '=' :: _ => true
            | _ => false) &&
           !startsL "from ".data t && !startsL "import ".data t then
          some run
        else none).foldl (fun acc o => match acc with
          | some v => some v
          | none => o) none
    match assignVar with
    | some v =>
      joinNl (lines ++ [("print(\"ODPOWIEDZ:\", ".data ++ v ++ [')'])])
    | none => joinNl lines
  else fixedIn

/-- `_fix_code_from_error(code, error_msg)` from `src/test-dataset.py`
(lines 514-585), fixes applied in source order. -/
def fix_code_from_errorL (code errMsg : List Char) : List Char :=
  -- Fix 1: NameError
  let fixed := match nameErrScan errMsg with
               | some missing => fixNameError code missing
               | none => code
  -- Fix 2: IndexError on empty solver results
  let fixed := if occursL "IndexError: list index out of range".data errMsg then
                 let f1 := runSub solveIdxM fixed
                 runSub idx0M f1
               else fixed
  -- Fix 3: And/Or object not subscriptable or iterable
  let fixed := if (occursL (squoteC :: "And".data ++ [squoteC] ++ " object".data) errMsg ||
                   occursL (squoteC :: "Or".data ++ [squoteC] ++ " object".data) errMsg) &&
                  (occursL "is not subscriptable".data errMsg ||
                   occursL "is not iterable".data errMsg) then
                 runSub forInM fixed
               else fixed
  -- Fix 4: wrong import names (unconditional)
  let fixed := replaceL "from sympy import Simplify".data
                 "from sympy import simplify".data fixed
  let fixed := replaceL "from sympy import Greater".data
                 "from sympy import Gt".data fixed
  -- Fix 5: comparison used instead of an equation
  let fixed := if occursL (squoteC :: "bool".data ++ [squoteC] ++
                   " object has no attribute ".data ++ [squoteC] ++
                   "subs".data ++ [squoteC]) errMsg then
                 runSub eqAssignM fixed
               else fixed
  -- Fix 6: symbol used as a sequence index
  let fixed := if occursL "tuple indices must be integers".data errMsg ||
                  occursL "list indices must be integers".data errMsg then
                 scanSubOnce idxVarM fixed.length fixed
               else fixed
  -- Fix 7: capitalized circle constant
  let fixed := if occursL ("name ".data ++ [squoteC] ++ "Pi".data ++
                   [squoteC] ++ " is not defined".data) errMsg then
                 replaceL "Pi".data "pi".data fixed
               else fixed
  -- Fix N: ensure a print statement exists
  ensurePrint fixed

def fix_code_from_error (code errMsg : String) : String :=
  (fix_code_from_errorL code.data errMsg.data).asString

/-! ## Retry controller (`_run_sympy_with_retry`)

`_run_sympy` spawns the sandboxed interpreter subprocess; it is the
external executor of the spec and enters the model as the oracle
`runSym`, returning the stripped stdout/stderr with the exit status,
or the distinct timeout / exception outcomes caught by the
controller.  The repairer enters as the oracle `fixErr`
(`_fix_code_from_error` above instantiates it). -/

inductive RunOutcome where
  | ok (stdout stderr : String) (rc : Int)
  | timeout
  | exn (msg : String)
deriving DecidableEq

structure RetryResult where
  output : Option String
  answerGot : Option String
  errors : List String
  execs : Nat
deriving DecidableEq

def MAX_RETRIES : Nat := 3

/-- The retry loop with `budget` retries remaining
(`budget = MAX_RETRIES - attempt`, so `budget = 0` is the last
attempt); each call performs exactly one execution. -/
def retryAux (runSym : String → RunOutcome)
    (fixErr : String → String → String) :
    Nat → String → Nat → RetryResult
  | 0, code, execsBefore =>
    let execs := execsBefore + 1
    match runSym code with
    | .ok out err rc =>
      if rc = 0 ∧ out ≠ "" then
        { output := some out, answerGot := extract_answer_from_output out,
          errors := [], execs := execs }
      else if rc = 0 ∧ out = "" then
        { output := none, answerGot := none,
          errors := ["SymPy: no output produced"], execs := execs }
      else
        { output := none, answerGot := none,
          errors := ["SymPy error: " ++ (pyTakeL 100 err.data).asString],
          execs := execs }
    | .timeout =>
      { output := none, answerGot := none,
        errors := ["SymPy timeout"], execs := execs }
    | .exn m =>
      { output := none, answerGot := none,
        errors := ["SymPy exception: " ++ m], execs := execs }
  | b + 1, code, execsBefore =>
    let execs := execsBefore + 1
    match runSym code with
    | .ok out err rc =>
      if rc = 0 ∧ out ≠ "" then
        { output := some out, answerGot := extract_answer_from_output out,
          errors := [], execs := execs }
      else if rc = 0 ∧ out = "" then
        { output := none, answerGot := none,
          errors := ["SymPy: no output produced"], execs := execs }
      else
        let fixed := fixErr code err
        if fixed = code then
          { output := none, answerGot := none,
            errors := ["SymPy error: " ++ (pyTakeL 100 err.data).asString],
            execs := execs }
        else retryAux runSym fixErr b fixed execs
    | .timeout =>
      { output := none, answerGot := none,
        errors := ["SymPy timeout"], execs := execs }
    | .exn m =>
      { output := none, answerGot := none,
        errors := ["SymPy exception: " ++ m], execs := execs }

/-- `_run_sympy_with_retry(code, …)` from `src/test-dataset.py` (lines
599-656): at most `MAX_RETRIES` retries beyond the first execution. -/
def run_sympy_with_retry (runSym : String → RunOutcome)
    (fixErr : String → String → String) (code : String) : RetryResult :=
  retryAux runSym fixErr MAX_RETRIES code 0

/-! ## Concrete scenarios and oracles used by the verification -/

/-- Oracle for the `float(sympify(·))` subprocess step when it yields
no float — its actual behavior on every string the verified scenarios
feed it (relational expressions and bare symbols). -/
def noEval : String → Option PyF := fun _ => none

/-- Oracle for `_sympy_compare` when the comparison subprocess fails
or prints `False` — its actual behavior on every pair the verified
scenarios feed it (relational expressions and distinct symbols). -/
def noCmp : String → String → Bool := fun _ _ => false

/-- The multiple-choice question of the interval scenario. -/
def qC1 : Question := ⟨[("A", "x<2"), ("B", "x>2"), ("C", "2<x<5")]⟩

/-- A five-option question whose letters exceed the `a-d` range. -/
def qE : Question := ⟨[("A", "p"), ("B", "q"), ("C", "r"), ("D", "u"), ("E", "w")]⟩

/-- A two-option question (letter set smaller than `a-d`). -/
def qAB : Question := ⟨[("A", "1"), ("B", "2")]⟩

/-- Executor oracle: every run fails with exit status 1. -/
def oracleFail : String → RunOutcome := fun _ => .ok "" "boom" 1

/-- Executor oracle: every run exceeds the hard timeout. -/
def oracleTO : String → RunOutcome := fun _ => .timeout

/-- Repairer oracle that always changes the code. -/
def fixBang : String → String → String := fun c _ => c ++ "!"

/-- Repairer oracle that never finds a fix (returns input unchanged). -/
def fixId : String → String → String := fun c _ => c

/-- The equality-used-as-assignment stderr (fix 5 trigger). -/
def boolSubsErr : String :=
  "AttributeError: " ++ squoteS ++ "bool" ++ squoteS ++
  " object has no attribute " ++ squoteS ++ "subs" ++ squoteS

/-- Texts on which the sanitizer is provably idempotent: no caret and
none of the misspelled identifiers (`GreaterEqual`/`LessEqual`
contain `Greater`/`Less`, so three substring checks suffice). -/
def sanitizeStable (t : String) : Bool :=
  (splitNl t.data).all fun l =>
    l.all (· ≠ '^') && !occursL "Simplify".data l &&
    !occursL "Greater".data l && !occursL "Less".data l

/-! ## Supporting lemmas -/

theorem splitNl_ne_nil (s : List Char) : splitNl s ≠ [] := by
  induction s with
  | nil => simp [splitNl]
  | cons c cs ih =>
    simp only [splitNl]
    by_cases h : c = '\n'
    · simp [h]
    · simp only [if_neg h]
      cases hs : splitNl cs with
      | nil => simp
      | cons p ps => simp

/-- Splitting a joined list of newline-free pieces recovers the
pieces. -/
theorem splitNl_joinNl (ls : List (List Char)) (hne : ls ≠ [])
    (h : ∀ l ∈ ls, '\n' ∉ l) : splitNl (joinNl ls) = ls := by
  induction ls with
  | nil => exact absurd rfl hne
  | cons p ps ih =>
    cases ps with
    | nil =>
      simp only [joinNl]
      have hp : '\n' ∉ p := h p (by simp)
      clear ih hne h
      induction p with
      | nil => simp [splitNl]
      | cons c cs ihp =>
        have hc : c ≠ '\n' := by
          intro hc; exact hp (by simp [hc])
        have hcs : '\n' ∉ cs := by
          intro hm; exact hp (by simp [hm])
        simp only [splitNl, if_neg hc, ihp hcs]
    | cons q qs =>
      have hjoin : joinNl (p :: q :: qs) = p ++ '\n' :: joinNl (q :: qs) := rfl
      have hp : '\n' ∉ p := h p (by simp)
      have hrest : splitNl (joinNl (q :: qs)) = q :: qs :=
        ih (by simp) (fun l hl => h l (by simp [hl]))
      rw [hjoin]
      clear ih hne h hjoin
      induction p with
      | nil => simpa [splitNl] using hrest
      | cons c cs ihp =>
        have hc : c ≠ '\n' := by
          intro hc; exact hp (by simp [hc])
        have hcs : '\n' ∉ cs := by
          intro hm; exact hp (by simp [hm])
        have := ihp hcs
        simp only [List.cons_append, splitNl, if_neg hc, this]
        cases hsplit : splitNl (cs ++ '\n' :: joinNl (q :: qs)) with
        | nil => exact absurd hsplit (splitNl_ne_nil _)
        | cons r rs => rw [hsplit] at this; rw [List.cons.injEq] at this ⊢
                       exact ⟨by rw [this.1], this.2⟩

/-- Pieces produced by `splitNl` never contain a newline. -/
theorem splitNl_no_nl (s : List Char) : ∀ l ∈ splitNl s, '\n' ∉ l := by
  induction s with
  | nil => intro l hl; simp [splitNl] at hl; simp [hl]
  | cons c cs ih =>
    intro l
    simp only [splitNl]
    by_cases h : c = '\n'
    · rw [if_pos h]
      intro hl
      rcases List.mem_cons.mp hl with hl | hl
      · simp [hl]
      · exact ih l hl
    · rw [if_neg h]
      cases hs : splitNl cs with
      | nil =>
        intro hl
        simp only [List.mem_singleton] at hl
        subst hl
        intro hmem
        simp only [List.mem_singleton] at hmem
        exact h hmem.symm
      | cons p ps =>
        intro hl
        rcases List.mem_cons.mp hl with hl | hl
        · subst hl
          intro hmem
          rcases List.mem_cons.mp hmem with hx | hx
          · exact h hx.symm
          · exact ih p (by rw [hs]; exact List.mem_cons_self p ps) hx
        · exact ih l (by rw [hs]; exact List.mem_cons_of_mem p hl)

/-- Under an always-failing executor and a repairer that always
changes the code, the loop consumes its whole budget, one execution
per budget step plus the final exhausted one. -/
theorem retryAux_always_fail (runSym : String → RunOutcome)
    (fixErr : String → String → String)
    (hfail : ∀ c, ∃ o e r, runSym c = RunOutcome.ok o e r ∧ r ≠ 0)
    (hchange : ∀ c e, fixErr c e ≠ c) :
    ∀ (budget : Nat) (code : String) (execs : Nat),
      (retryAux runSym fixErr budget code execs).execs = execs + (budget + 1) ∧
      (retryAux runSym fixErr budget code execs).output = none := by
  intro budget
  induction budget with
  | zero =>
    intro code execs
    obtain ⟨o, e, r, hr, hrne⟩ := hfail code
    simp only [retryAux, hr]
    rw [if_neg (fun h => hrne h.1), if_neg (fun h => hrne h.1)]
    exact ⟨rfl, rfl⟩
  | succ b ih =>
    intro code execs
    obtain ⟨o, e, r, hr, hrne⟩ := hfail code
    simp only [retryAux, hr]
    rw [if_neg (fun h => hrne h.1), if_neg (fun h => hrne h.1),
        if_neg (hchange code e)]
    have h2 := ih (fixErr code e) (execs + 1)
    refine ⟨?_, h2.2⟩
    rw [h2.1]; omega

/-- C2: for every input code and every sequence of failing executions
whose stderr always triggers a repair that changes the code, the retry
controller performs exactly `MAX_RETRIES + 1 = 4` executions (hence at
most four) before terminating exhausted with no output. -/
theorem c2_retry_bound (runSym : String → RunOutcome)
    (fixErr : String → String → String) (code : String)
    (hfail : ∀ c, ∃ o e r, runSym c = RunOutcome.ok o e r ∧ r ≠ 0)
    (hchange : ∀ c e, fixErr c e ≠ c) :
    (run_sympy_with_retry runSym fixErr code).execs = MAX_RETRIES + 1 ∧
    (run_sympy_with_retry runSym fixErr code).output = none := by
  have h := retryAux_always_fail runSym fixErr hfail hchange MAX_RETRIES code 0
  simp only [run_sympy_with_retry]
  exact ⟨by rw [h.1]; rfl, h.2⟩

/-- C2 witness: a concrete always-failing executor with an
always-changing repairer performs exactly four executions. -/
theorem c2_retry_bound_witness :
    (run_sympy_with_retry oracleFail fixBang "x").execs = MAX_RETRIES + 1 ∧
    (run_sympy_with_retry oracleFail fixBang "x").output = none :=
  c2_retry_bound oracleFail fixBang "x"
    (fun _ => ⟨"", "boom", 1, rfl, by decide⟩)
    (fun c e h => by
      have hlen := congrArg String.length h
      simp [fixBang, String.length_append] at hlen
      exact absurd hlen (by decide))

/-- C3 counterexample: a first-attempt timeout terminates the
controller after a single execution even though retry budget remains
and the repairer would change the code, while a non-zero exit with the
same repairer consumes all four executions — so a timeout does not go
through the retry-counting path of a non-zero exit. -/
theorem c3_counterexample :
    (run_sympy_with_retry oracleTO fixBang "code").execs = 1 ∧
    (run_sympy_with_retry oracleTO fixBang "code").errors = ["SymPy timeout"] ∧
    (run_sympy_with_retry oracleFail fixBang "code").execs = MAX_RETRIES + 1 ∧
    (1 : Nat) ≠ MAX_RETRIES + 1 := by decide

/-- C3 (amended): a timeout is recorded with the distinct reason
`"SymPy timeout"` and immediately terminates the retry loop after the
timed-out execution, performing no further attempts regardless of the
remaining budget (it does not count-and-continue like a non-zero
exit). -/
theorem c3_timeout_terminal (runSym : String → RunOutcome)
    (fixErr : String → String → String) (budget : Nat) (code : String)
    (execs : Nat) (h : runSym code = RunOutcome.timeout) :
    retryAux runSym fixErr budget code execs =
      { output := none, answerGot := none,
        errors := ["SymPy timeout"], execs := execs + 1 } := by
  cases budget with
  | zero => simp only [retryAux, h]
  | succ b => simp only [retryAux, h]

/-- C3 witness: the timeout oracle at full budget stops after one
execution with the distinct reason. -/
theorem c3_timeout_terminal_witness :
    retryAux oracleTO fixBang MAX_RETRIES "code" 0 =
      { output := none, answerGot := none,
        errors := ["SymPy timeout"], execs := 1 } :=
  c3_timeout_terminal oracleTO fixBang MAX_RETRIES "code" 0 rfl

/-- C5: when an execution fails (non-zero exit) with retry budget
remaining and the repairer returns the code unchanged, the controller
performs no further execution and terminates with the unfixable
diagnostic, regardless of the remaining budget. -/
theorem c5_unfixable_stops (runSym : String → RunOutcome)
    (fixErr : String → String → String) (b : Nat) (code : String)
    (execs : Nat) (out err : String) (rc : Int)
    (hrun : runSym code = RunOutcome.ok out err rc) (hrc : rc ≠ 0)
    (hfix : fixErr code err = code) :
    retryAux runSym fixErr (b + 1) code execs =
      { output := none, answerGot := none,
        errors := ["SymPy error: " ++ (pyTakeL 100 err.data).asString],
        execs := execs + 1 } := by
  simp only [retryAux, hrun]
  rw [if_neg (fun h => hrc h.1), if_neg (fun h => hrc h.1), if_pos hfix]

/-- C5 witness: an identity repairer stops the full-budget controller
after the first failing execution. -/
theorem c5_unfixable_stops_witness :
    retryAux oracleFail fixId MAX_RETRIES "x" 0 =
      { output := none, answerGot := none,
        errors := ["SymPy error: boom"], execs := 1 } := by
  have h := c5_unfixable_stops oracleFail fixId 2 "x" 0 "" "boom" 1 rfl
    (by decide) rfl
  exact h.trans (by decide)

/-- C6: the Answer Extractor satisfies the three reference cases: on
`"ODPOWIEDZ: [5]"` it returns `"5"`; on an unlabeled output whose last
non-empty line is `"Wynik: 3/4"` it returns `"3/4"`; on
`"ODPOWIEDZ: none"` it returns no answer. -/
theorem c6_extractor_reference_cases :
    extract_answer_from_output "ODPOWIEDZ: [5]" = some "5" ∧
    extract_answer_from_output "Obliczam wynik\nWynik: 3/4" = some "3/4" ∧
    extract_answer_from_output "ODPOWIEDZ: none" = none := by
  exact ⟨rfl, rfl, rfl⟩

/-- C10: for every question and reference answer, an absent (`None`)
or empty candidate answer makes the Equivalence Checker return
`(False, "No answer produced")` immediately, before any matching
strategy (and for any behavior of the sympy oracles). -/
theorem c10_no_answer (sympifyFloat : String → Option PyF)
    (sympyCompare : String → String → Bool) (expected : String)
    (q : Question) :
    check_answer sympifyFloat sympyCompare expected none q =
      (false, "No answer produced") ∧
    check_answer sympifyFloat sympyCompare expected (some "") q =
      (false, "No answer produced") :=
  ⟨rfl, rfl⟩

/-- C1: evaluation of the multiple-choice scenario (options
`A: x<2`, `B: x>2`, `C: 2<x<5`, expected `C`, candidate
`"(x > 2) & (x < 5)"`).  `_normalize_interval` returns the candidate
and every option unchanged — it also fails on both examples of its own
docstring — so the interval-normalization strategy never fires; the
checker still answers match=True, but through the numeric value
strategy (the last numeral of both the candidate and option C is 5). -/
theorem c1_interval_normalization_inert :
    normalize_interval "(x > 2) & (x < 5)" = "(x > 2) & (x < 5)" ∧
    normalize_interval "2<x<5" = "2<x<5" ∧
    normalize_interval "(x > 2/3) & (x < oo)" = "(x > 2/3) & (x < oo)" ∧
    normalize_interval "(-1 <= x) & (x <= 4)" = "<(-1, 4>" ∧
    check_answer noEval noCmp "C" (some "(x > 2) & (x < 5)") qC1 =
      (true, "Value match: 5.0 = option C (2<x<5)") :=
  ⟨rfl, rfl, rfl, rfl, rfl⟩

/-- C8 counterexample: with the equality-used-as-assignment stderr,
the repairer rewrites BOTH `lhs = rhs == rhs2` lines of a two-line
program, not only the first. -/
theorem c8_counterexample :
    fix_code_from_error "a = b == c\nd = e == f\nprint(a)" boolSubsErr =
      "a = Eq(b, c)\nd = Eq(e, f)\nprint(a)" ∧
    fix_code_from_error "a = b == c\nd = e == f\nprint(a)" boolSubsErr ≠
      "a = Eq(b, c)\nd = e == f\nprint(a)" := by
  exact ⟨rfl, by decide⟩

/-- C8 (amended): on the bool-subs error the repairer rewrites every
`lhs = rhs == rhs2` line into an `Eq(…)` construction (`re.sub`
replaces all matches): all three such lines of a three-line program
are rewritten. -/
theorem c8_rewrites_all_eq_lines :
    fix_code_from_error "a = b == c\nd = e == f\ng = h == i\nprint(a)"
      boolSubsErr =
      "a = Eq(b, c)\nd = Eq(e, f)\ng = Eq(h, i)\nprint(a)" := rfl

/-- The standalone-letter scanner only ever returns a letter of the
fixed `a-d`/`A-D` class. -/
theorem letterSearchAux_range (s : List Char) :
    ∀ (w : Bool) (c : Char), letterSearchAux w s = some c →
      letterAD c = true := by
  induction s with
  | nil => intro w c h; exact absurd h (by simp [letterSearchAux])
  | cons a as ih =>
    intro w c h
    simp only [letterSearchAux] at h
    split at h
    · rename_i hcond
      injection h with h'
      subst h'
      simp only [Bool.and_eq_true] at hcond
      exact hcond.1.1
    · exact ih _ _ h

/-- C7 counterexample: the letter `E` belongs to this question's valid
option-letter set `{A,…,E}` and equals the expected letter, yet the
fixed `a-d` scan never detects it and the checker answers
match=False. -/
theorem c7_counterexample :
    letterSearch "E".data = none ∧
    check_answer noEval noCmp "E" (some "E") qE =
      (false, "Expected E (w), got: E") := ⟨rfl, rfl⟩

/-- C7 (amended): the first strategy detects a standalone single
letter exactly from the fixed range `a-d`/`A-D`, independently of the
question's option-letter set, and compares it case-insensitively to
the expected letter: whenever the scan finds such a letter and it
equals the expected letter case-insensitively, the checker returns the
letter match. -/
theorem c7_fixed_letter_range :
    (∀ (s : List Char) (c : Char), letterSearch s = some c →
       letterAD c = true) ∧
    (∀ (sympifyFloat : String → Option PyF)
       (cmp : String → String → Bool) (expected g : String)
       (q : Question) (c : Char),
       q.options ≠ [] →
       letterSearch (pyStrip g).data = some c →
       pyUpper (String.mk [c]) = pyUpper (pyStrip expected) →
       check_answer sympifyFloat cmp expected (some g) q =
         (true, "Letter match: " ++ pyUpper (String.mk [c]))) := by
  constructor
  · intro s c h
    exact letterSearchAux_range s false c h
  · intro sympifyFloat cmp expected g q c hopt hsearch heq
    have hg : ¬(g = "") := by
      intro hgg
      subst hgg
      rw [show letterSearch (pyStrip "").data = none from rfl] at hsearch
      cases hsearch
    simp only [check_answer]
    rw [if_neg hg, if_pos hopt, hsearch]
    simp [heq]

/-- C7 witness: standalone `c` in `"Odp: c"` is detected (it is in the
fixed range) and matches expected letter `c` case-insensitively, for a
question whose letters are only `{A, B}`. -/
theorem c7_fixed_letter_range_witness :
    letterAD 'c' = true ∧
    check_answer noEval noCmp "c" (some "Odp: c") qAB =
      (true, "Letter match: C") :=
  ⟨c7_fixed_letter_range.1 "c".data 'c' rfl,
   by
     have h := c7_fixed_letter_range.2 noEval noCmp "c" "Odp: c" qAB 'c'
       (by decide) rfl rfl
     exact h.trans (by decide)⟩

/-- The reverse-scan loop of the extractor finds nothing when no line
contains a value character. -/
theorem fallbackScan_none (ls : List (List Char))
    (h : ∀ l ∈ ls, hasValueChar l = false) : fallbackScan ls = none := by
  induction ls with
  | nil => rfl
  | cons l rest ih =>
    have hl := h l (List.mem_cons_self l rest)
    simp only [fallbackScan, hl]
    exact ih fun x hx => h x (List.mem_cons_of_mem l hx)

/-- C9: for an output with no labeled marker line, at least one
non-empty line, and no line containing a digit, ASCII letter, or one
of the operator characters `- . * / ( )`, the extractor returns the
last non-empty (stripped) line verbatim rather than no answer. -/
theorem c9_last_line_fallback (output : String)
    (hmark : markerScan output.data = none)
    (hne : ((splitNl (pyStripL output.data)).map pyStripL).filter
      (· ≠ []) ≠ [])
    (hval : ∀ l ∈ ((splitNl (pyStripL output.data)).map pyStripL).filter
      (· ≠ []), hasValueChar l = false) :
    extractAnswerL output.data =
      some (((((splitNl (pyStripL output.data)).map pyStripL).filter
        (· ≠ []))).getLast hne) := by
  simp only [extractAnswerL, hmark]
  rw [dif_pos hne,
      fallbackScan_none _ (fun l hl => hval l (List.mem_reverse.mp hl))]

/-- C9 witness: an output of pure punctuation yields its last stripped
line. -/
theorem c9_last_line_fallback_witness :
    extractAnswerL "!! ??\n:: ~~".data = some ":: ~~".data := by
  have h := c9_last_line_fallback "!! ??\n:: ~~" rfl (by decide) (by decide)
  exact h.trans (by decide)

/-- The caret matchers need a caret as the second character. -/
theorem caret1M_none (l : List Char) (h : '^' ∉ l) : caret1M l = none := by
  cases l with
  | nil => rfl
  | cons a t =>
    cases t with
    | nil => rfl
    | cons b t2 =>
      cases t2 with
      | nil => rfl
      | cons c rest =>
        have hb : ¬(b = '^') := fun hb => h (by simp [hb])
        simp [caret1M, hb]

theorem caret2M_none (l : List Char) (h : '^' ∉ l) : caret2M l = none := by
  cases l with
  | nil => rfl
  | cons a t =>
    cases t with
    | nil => rfl
    | cons b t2 =>
      cases t2 with
      | nil => rfl
      | cons c rest =>
        have hb : ¬(b = '^') := fun hb => h (by simp [hb])
        simp [caret2M, hb]

theorem caret3M_none (l : List Char) (h : '^' ∉ l) : caret3M l = none := by
  cases l with
  | nil => rfl
  | cons a t =>
    cases t with
    | nil => rfl
    | cons b t2 =>
      cases t2 with
      | nil => rfl
      | cons c rest =>
        have hb : ¬(b = '^') := fun hb => h (by simp [hb])
        simp [caret3M, hb]

/-- A substitution whose matcher never fires on caret-free text is the
identity there. -/
theorem scanSub_id_no_caret
    (tryM : List Char → Option (List Char × List Char))
    (htry : ∀ l, '^' ∉ l → tryM l = none) :
    ∀ (fuel : Nat) (l : List Char), '^' ∉ l → scanSub tryM fuel l = l := by
  intro fuel
  induction fuel with
  | zero => intro l _; cases l <;> rfl
  | succ f ih =>
    intro l h
    cases l with
    | nil => rfl
    | cons c cs =>
      simp only [scanSub]
      rw [htry _ h]
      have hcs : '^' ∉ cs := fun hm => h (List.mem_cons_of_mem c hm)
      simp [ih cs hcs]

/-- Caret rewriting is the identity on caret-free lines. -/
theorem caretFixLine_id (l : List Char) (h : '^' ∉ l) :
    caretFixLine l = l := by
  have h1 : runSub caret1M l = l :=
    scanSub_id_no_caret caret1M caret1M_none l.length l h
  have h2 : runSub caret2M l = l :=
    scanSub_id_no_caret caret2M caret2M_none l.length l h
  have h3 : runSub caret3M l = l :=
    scanSub_id_no_caret caret3M caret3M_none l.length l h
  unfold caretFixLine
  rw [h1, h2, h3, ite_self]

/-- A head match of a concatenated pattern gives a head match of its
left part. -/
theorem startsL_append_left (p q : List Char) :
    ∀ (s : List Char), startsL (p ++ q) s = true → startsL p s = true := by
  induction p with
  | nil => intro s _; rfl
  | cons a ps ih =>
    intro s h
    cases s with
    | nil => simp [startsL] at h
    | cons b t =>
      simp only [List.cons_append, startsL, Bool.and_eq_true] at h ⊢
      exact ⟨h.1, ih t h.2⟩

/-- An occurrence of a concatenated pattern contains an occurrence of
its left part. -/
theorem occursL_of_append (p q : List Char) :
    ∀ (s : List Char), occursL (p ++ q) s = true → occursL p s = true := by
  intro s
  induction s with
  | nil =>
    intro h
    simpa [occursL] using startsL_append_left p q []
      (by simpa [occursL] using h)
  | cons c cs ih =>
    intro h
    simp only [occursL, Bool.or_eq_true] at h ⊢
    rcases h with h | h
    · exact Or.inl (startsL_append_left p q _ h)
    · exact Or.inr (ih h)

/-- The wrong-import table is the identity on lines containing none of
the misspelled identifiers. -/
theorem importFixLine_id (l : List Char)
    (h1 : occursL "Simplify".data l = false)
    (h2 : occursL "Greater".data l = false)
    (h3 : occursL "Less".data l = false) : importFixLine l = l := by
  have h4 : occursL "GreaterEqual".data l = false := by
    cases hh : occursL "GreaterEqual".data l with
    | false => rfl
    | true =>
      have hg := occursL_of_append "Greater".data "Equal".data l
        (show occursL ("Greater".data ++ "Equal".data) l = true from hh)
      rw [h2] at hg
      cases hg
  have h5 : occursL "LessEqual".data l = false := by
    cases hh : occursL "LessEqual".data l with
    | false => rfl
    | true =>
      have hg := occursL_of_append "Less".data "Equal".data l
        (show occursL ("Less".data ++ "Equal".data) l = true from hh)
      rw [h3] at hg
      cases hg
  simp [importFixLine, h1, h2, h3, h4, h5]

/-- Mapping a function that fixes every member is the identity. -/
theorem map_self_of (f : List Char → List Char) :
    ∀ (L : List (List Char)), (∀ l ∈ L, f l = l) → L.map f = L := by
  intro L h
  induction L with
  | nil => rfl
  | cons a t ih =>
    simp [h a (by simp), ih fun l hl => h l (by simp [hl])]

/-- Sanitizer idempotence on texts whose lines are caret-free and free
of the misspelled identifiers. -/
theorem sanitize_idem_aux (s : List Char)
    (hs : ∀ l ∈ splitNl s, '^' ∉ l ∧ occursL "Simplify".data l = false ∧
          occursL "Greater".data l = false ∧
          occursL "Less".data l = false) :
    sanitize_codeL (sanitize_codeL s) = sanitize_codeL s := by
  have hfix : ∀ l ∈ (splitNl s).filter
      (fun l => !startsL "assert ".data (pyStripL l)),
      caretFixLine l = l ∧ importFixLine l = l := by
    intro l hl
    obtain ⟨hc, hS, hG, hL⟩ := hs l (List.mem_filter.mp hl).1
    exact ⟨caretFixLine_id l hc, importFixLine_id l hS hG hL⟩
  have hone : sanitize_codeL s = joinNl ((splitNl s).filter
      (fun l => !startsL "assert ".data (pyStripL l))) := by
    simp only [sanitize_codeL]
    rw [map_self_of caretFixLine _ fun l hl => (hfix l hl).1,
        map_self_of importFixLine _ fun l hl => (hfix l hl).2]
  rcases eq_or_ne ((splitNl s).filter
      (fun l => !startsL "assert ".data (pyStripL l))) [] with hnil | hne
  · rw [hone, hnil]
    rfl
  · rw [hone]
    have hnn : ∀ l ∈ (splitNl s).filter
        (fun l => !startsL "assert ".data (pyStripL l)), '\n' ∉ l :=
      fun l hl => splitNl_no_nl s l (List.mem_filter.mp hl).1
    have hsplit := splitNl_joinNl _ hne hnn
    simp only [sanitize_codeL, hsplit]
    have hfilter : ((splitNl s).filter
        (fun l => !startsL "assert ".data (pyStripL l))).filter
        (fun l => !startsL "assert ".data (pyStripL l)) =
        (splitNl s).filter
        (fun l => !startsL "assert ".data (pyStripL l)) :=
      List.filter_eq_self.mpr fun a ha => (List.mem_filter.mp ha).2
    rw [hfilter,
        map_self_of caretFixLine _ fun l hl => (hfix l hl).1,
        map_self_of importFixLine _ fun l hl => (hfix l hl).2]

/-- C4 counterexample: the Code Normalizer is not idempotent:
sanitizing `"a^b^c"` once yields `"a**b^c"`, twice yields
`"a**b**c"`. -/
theorem c4_counterexample :
    sanitize_code "a^b^c" = "a**b^c" ∧
    sanitize_code (sanitize_code "a^b^c") = "a**b**c" ∧
    sanitize_code (sanitize_code "a^b^c") ≠ sanitize_code "a^b^c" :=
  ⟨rfl, rfl, by decide⟩

/-- C4 (amended): the Code Normalizer is idempotent on every program
text containing no caret character and no occurrence of the misspelled
identifiers `Simplify`/`Greater`/`Less` (the overlapping-caret rewrite
`a^b^c` and identifier rewrites are the only sources of change). -/
theorem c4_sanitize_idempotent_on_stable (t : String)
    (h : sanitizeStable t = true) :
    sanitize_code (sanitize_code t) = sanitize_code t := by
  have hs : ∀ l ∈ splitNl t.data, '^' ∉ l ∧
      occursL "Simplify".data l = false ∧
      occursL "Greater".data l = false ∧
      occursL "Less".data l = false := by
    intro l hl
    have hal := List.all_eq_true.mp h l hl
    simp only [Bool.and_eq_true, Bool.not_eq_true'] at hal
    obtain ⟨⟨⟨hcaret, hS⟩, hG⟩, hL⟩ := hal
    refine ⟨?_, hS, hG, hL⟩
    intro hmem
    have := List.all_eq_true.mp hcaret '^' hmem
    simp at this
  have hidem := sanitize_idem_aux t.data hs
  show (sanitize_codeL ((sanitize_codeL t.data).asString).data).asString =
       (sanitize_codeL t.data).asString
  have hdata : ((sanitize_codeL t.data).asString).data =
      sanitize_codeL t.data := rfl
  rw [hdata, hidem]

/-- C4 witness: a caret-free, identifier-clean program is a fixed
point after one pass. -/
theorem c4_sanitize_idempotent_on_stable_witness :
    sanitize_code (sanitize_code "x = 1\nassert x > 0\nprint(x)") =
      sanitize_code "x = 1\nassert x > 0\nprint(x)" :=
  c4_sanitize_idempotent_on_stable "x = 1\nassert x > 0\nprint(x)" (by decide)

end Bielik
